import Mathlib

set_option maxHeartbeats 1000000

namespace InvestmentAnalysis

/-! Shallow embedding of src/investment-analysis-tool/analysis.py, class
PortfolioAnalyzer. Python floats are modelled as rationals with decimal literals
taken exactly; pandas dataframes as lists of row structures; Python dicts as
insertion-ordered association lists; a failed load (the method returning False
after catching an exception) as none / Except.error. -/

/-- ASCII upper-casing of one character, as the Python upper method acts on ASCII. -/
def upChar (c : Char) : Char :=
  if 'a' ≤ c ∧ c ≤ 'z' then Char.ofNat (c.toNat - 32) else c

/-- ASCII lower-casing of one character, as the Python lower method acts on ASCII. -/
def lowChar (c : Char) : Char :=
  if 'A' ≤ c ∧ c ≤ 'Z' then Char.ofNat (c.toNat + 32) else c

/-- Upper-case a string character by character. -/
def upStr (s : String) : String := ⟨s.toList.map upChar⟩

/-- Lower-case a string character by character. -/
def lowStr (s : String) : String := ⟨s.toList.map lowChar⟩

/-- Whether the first char list is a leading block of the second. -/
def startsWithChars : List Char → List Char → Bool
  | [], _ => true
  | _ :: _, [] => false
  | a :: t, b :: u => a == b && startsWithChars t u

/-- Substring test on char lists. -/
def containsSub (hay pat : List Char) : Bool :=
  match hay with
  | [] => pat.isEmpty
  | c :: t => startsWithChars pat (c :: t) || containsSub t pat

/-- The Python substring operator: containsStr hay pat holds when pat occurs in hay. -/
def containsStr (hay pat : String) : Bool := containsSub hay.toList pat.toList

/-- Read of a Python dict key over an insertion-ordered association list. -/
def alGet {α : Type} (m : List (String × α)) (k : String) : Option α :=
  match m with
  | [] => none
  | e :: t => if e.1 = k then some e.2 else alGet t k

/-- Write of a Python dict key: replace in place when present, else append. -/
def alSet {α : Type} (m : List (String × α)) (k : String) (v : α) :
    List (String × α) :=
  match m with
  | [] => [(k, v)]
  | e :: t => if e.1 = k then (k, v) :: t else e :: alSet t k v

/-- Python del of a dict key. -/
def alErase {α : Type} (m : List (String × α)) (k : String) : List (String × α) :=
  m.filter (fun e => e.1 != k)

/-- All characters are decimal digits. -/
def allDigits (cs : List Char) : Bool := cs.all (fun c => c.isDigit)

/-- Decimal digits to a natural number. -/
def digitsToNat (cs : List Char) : ℕ := cs.foldl (fun n c => 10 * n + (c.toNat - 48)) 0

/-- Decimal shape of a parsed numeric literal: sign, integer-part value,
fraction-part value and fraction length. -/
structure DecimalParts where
  neg : Bool
  intPart : ℕ
  fracPart : ℕ
  fracLen : ℕ
deriving DecidableEq

/-- Syntactic stage of the Python float constructor on plain decimal text: an
optional sign, an integer part and an optional fraction part with at least one
digit in total; any other shape raises ValueError, modelled as none. -/
def pyParse? (s : String) : Option DecimalParts :=
  let signAndDigits : Bool × List Char :=
    match s.toList with
    | '-' :: t => (true, t)
    | '+' :: t => (false, t)
    | cs => (false, cs)
  let ip := (signAndDigits.2.span (fun c => c != '.')).1
  let rest := (signAndDigits.2.span (fun c => c != '.')).2
  let fp := rest.drop 1
  if allDigits ip && allDigits fp && !(ip.isEmpty && fp.isEmpty) then
    some { neg := signAndDigits.1, intPart := digitsToNat ip,
           fracPart := digitsToNat fp, fracLen := fp.length }
  else none

/-- Numeric value of a parsed decimal literal. -/
def ratOfParts (p : DecimalParts) : ℚ :=
  let mag : ℚ := (p.intPart : ℚ) + (p.fracPart : ℚ) / (10 : ℚ) ^ p.fracLen
  if p.neg then -mag else mag

/-- Model of the Python float constructor: parse the decimal text, none on a
ValueError shape. -/
def pyFloat? (s : String) : Option ℚ := (pyParse? s).map ratOfParts

/-- Remove every occurrence of the given characters, as a regex replace by the
empty string does. -/
def stripChars (bad : List Char) (s : String) : String :=
  ⟨s.toList.filter (fun c => !(bad.contains c))⟩

/-- analysis.py line 38: an Amount cell has dollar signs and commas stripped. -/
def stripMoney : String → String := stripChars ['$', ',']

/-- analysis.py lines 163-170: a textual Quantity cell has commas removed and is
converted with float; a ValueError or missing value yields 0. -/
def qtyOf (s : String) : ℚ := (pyFloat? (stripChars [','] s)).getD 0

/-- One row of the legacy-brokerage history CSV as read (lines 19-20), before the
misalignment repair. Cells keep their raw text; runDate is the to_datetime result
of line 33 with dates modelled as integers, none standing for NaT. -/
structure RawHistRow where
  runDate : Option ℤ
  action : String
  symbol : String
  quantity : String
  price : String
  currency : String
  amount : String
deriving DecidableEq

/-- One row of the loaded history dataframe: date filter applied and Amount coerced
to a float. Quantity, Price and Currency stay textual, because calculate_holdings
re-parses Quantity row by row (lines 162-170). -/
structure HistRow where
  date : ℤ
  action : String
  symbol : String
  quantity : String
  price : String
  currency : String
  amount : ℚ
deriving DecidableEq

/-- analysis.py lines 25-31: under the shift repair, Quantity is re-bound to the old
Price column and Price to the old Currency column; the renames to CurrencyCode,
RealPrice and RealQuantity are bookkeeping for those two assignments. -/
def shiftFix (r : RawHistRow) : RawHistRow :=
  { r with quantity := r.price, price := r.currency }

/-- analysis.py lines 23-31: the file-level column-misalignment repair, applied to
every row exactly when some Quantity cell contains the substring USD. -/
def repairHistory (rows : List RawHistRow) : List RawHistRow :=
  if rows.any (fun r => containsStr r.quantity "USD") then rows.map shiftFix else rows

/-- analysis.py lines 16-43 on one parsed history file: repair the shift, drop rows
without a parseable Run Date (line 34), coerce the Amount column with astype(float)
after stripping dollar signs and commas - astype raises on the first non-numeric
cell and the surrounding try/except then fails the whole load - and sort by date
(line 40; tie order among equal dates is never relevant below). -/
def loadHistory (raws : List RawHistRow) : Except String (List HistRow) :=
  let rs := (repairHistory raws).filter (fun r => r.runDate.isSome)
  if rs.all (fun r => (pyFloat? (stripMoney r.amount)).isSome) then
    Except.ok (List.insertionSort (fun a b => a.date ≤ b.date)
      (rs.map (fun r =>
        { date := r.runDate.getD 0, action := r.action, symbol := r.symbol,
          quantity := r.quantity, price := r.price, currency := r.currency,
          amount := (pyFloat? (stripMoney r.amount)).getD 0 })))
  else Except.error "could not convert string to float"

/-- One cleaned row of the positions snapshot dataframe (lines 48-60): footer rows
without an Account Number already dropped and the numeric columns coerced. Only the
columns the analyzer later reads are modelled. -/
structure PositionRow where
  symbol : String
  quantity : ℚ
  currentValue : ℚ
  investmentType : String
deriving DecidableEq

/-- The per-symbol metadata kept in holdings_data: the fields read back later,
namely Current Value (get_factor_exposure, generate_tweaks) and Investment Type. -/
structure PositionDetail where
  currentValue : ℚ
  investmentType : String
deriving DecidableEq

/-- The holdings_data entry made from a full snapshot row (line 155). -/
def detailOfRow (r : PositionRow) : PositionDetail :=
  { currentValue := r.currentValue, investmentType := r.investmentType }

/-- Symbol to quantity, insertion ordered. -/
abbrev HoldingsMap := List (String × ℚ)

/-- Symbol to metadata, insertion ordered. -/
abbrev DetailMap := List (String × PositionDetail)

/-- The mutable attributes of PortfolioAnalyzer that calculate_holdings and the
metrics methods read and write. -/
structure AnalyzerState where
  history_df : Option (List HistRow)
  positions_df : Option (List PositionRow)
  holdings : HoldingsMap
  holdings_data : DetailMap
deriving DecidableEq

/-- analysis.py lines 16-66, load_data. An unreadable history file (read_csv
raising, modelled by Except.error input) or a bad Amount column makes load_data
return False, modelled as none. An unreadable positions file is caught at lines
62-64 and the run continues with positions_df left as None. -/
def loadData (histRaw : Except String (List RawHistRow))
    (posRaw : Option (Except String (List PositionRow))) :
    Option (List HistRow × Option (List PositionRow)) :=
  match histRaw with
  | Except.error _ => none
  | Except.ok raws =>
    match loadHistory raws with
    | Except.error _ => none
    | Except.ok hist =>
      match posRaw with
      | none => some (hist, none)
      | some (Except.error _) => some (hist, none)
      | some (Except.ok ps) => some (hist, some ps)

/-- analysis.py lines 159-178: one history row applied to the running holdings.
An action containing BOUGHT or REINVESTMENT adds the signed Quantity; otherwise an
action containing SOLD also adds the signed Quantity - the legacy export carries
sell quantities as negative numbers - and afterwards the symbol is removed when
its running total is not positive. -/
def replayStep (h : HoldingsMap) (row : HistRow) : HoldingsMap :=
  let action := upStr row.action
  let qty := qtyOf row.quantity
  if containsStr action "BOUGHT" || containsStr action "REINVESTMENT" then
    alSet h row.symbol ((alGet h row.symbol).getD 0 + qty)
  else if containsStr action "SOLD" then
    let v := (alGet h row.symbol).getD 0 + qty
    if v ≤ 0 then alErase (alSet h row.symbol v) row.symbol
    else alSet h row.symbol v
  else h

/-- analysis.py lines 156-180: fallback reconstruction of holdings from history. -/
def legacyReplay (rows : List HistRow) : HoldingsMap :=
  rows.foldl replayStep []

/-- analysis.py lines 145-155: one snapshot row folded into holdings and
holdings_data. Rows whose symbol is empty, the literal nan, or contains the
Pending activity marker are skipped; asterisks are stripped from the symbol; the
quantity is copied verbatim and the full row becomes the metadata entry. -/
def snapshotStep (acc : HoldingsMap × DetailMap) (row : PositionRow) :
    HoldingsMap × DetailMap :=
  if row.symbol = "" ∨ row.symbol = "nan" ∨ containsStr row.symbol "Pending activity" then
    acc
  else
    (alSet acc.1 (stripChars ['*'] row.symbol) row.quantity,
     alSet acc.2 (stripChars ['*'] row.symbol) (detailOfRow row))

/-- analysis.py lines 143-155: the snapshot fold over all position rows. -/
def snapshotFold (ps : List PositionRow) : HoldingsMap × DetailMap :=
  ps.foldl snapshotStep ([], [])

/-- analysis.py lines 138-182, calculate_holdings. With a positions dataframe the
snapshot is folded, but only when holdings is still empty (lines 141-144);
otherwise the state is returned untouched. Without positions the history is
replayed (history_df is always set on that path; getD [] covers the unreachable
None case). -/
def calculateHoldings (st : AnalyzerState) : AnalyzerState :=
  match st.positions_df with
  | some ps =>
    if st.holdings.isEmpty then
      { st with holdings := (snapshotFold ps).1, holdings_data := (snapshotFold ps).2 }
    else st
  | none =>
    { st with holdings := legacyReplay (st.history_df.getD []) }

/-- One row of the retail-brokerage orders export after header normalisation
(lines 72-73). quantity and price are the numeric cells; price stands for
average_price when that column exists, else price (line 101). Dates are not
modelled: the row list is taken in its final date-sorted order (lines 82-91). -/
structure OrderRow where
  symbol : String
  side : String
  state : String
  quantity : ℚ
  price : ℚ
deriving DecidableEq

/-- analysis.py lines 97-118: one order folded into holdings and holdings_data.
A buy adds the quantity; a sell subtracts it and removes the symbol when the
result is at most the 0.0001 tolerance; afterwards, while the symbol is still
held, its metadata is refreshed from the last transaction price. -/
def robinhoodStep (acc : HoldingsMap × DetailMap) (row : OrderRow) :
    HoldingsMap × DetailMap :=
  let symbol := upStr row.symbol
  let side := lowStr row.side
  let h :=
    if side = "buy" then
      alSet acc.1 symbol ((alGet acc.1 symbol).getD 0 + row.quantity)
    else if side = "sell" then
      let v := (alGet acc.1 symbol).getD 0 - row.quantity
      if v ≤ 1 / 10000 then alErase (alSet acc.1 symbol v) symbol
      else alSet acc.1 symbol v
    else acc.1
  match alGet h symbol with
  | some q =>
    (h, alSet acc.2 symbol { currentValue := q * row.price, investmentType := "Stocks" })
  | none => (h, acc.2)

/-- analysis.py lines 77-127, load_robinhood_data on an orders file: keep the
filled orders, fold them, drop residual holdings of at most 0.001, and build the
mock positions dataframe - its rows carry Symbol, Current Value and Investment
Type but no Quantity column, so a later row.get of Quantity defaults to 0.
Returns (holdings, holdings_data, mock positions). -/
def loadRobinhood (rows : List OrderRow) :
    HoldingsMap × DetailMap × List PositionRow :=
  let acc := (rows.filter (fun r => r.state == "filled")).foldl robinhoodStep ([], [])
  let h := acc.1.filter (fun kv => decide ((1 : ℚ) / 1000 < kv.2))
  (h, acc.2,
    h.map (fun kv =>
      { symbol := kv.1, quantity := 0,
        currentValue := ((alGet acc.2 kv.1).map (fun d => d.currentValue)).getD 0,
        investmentType := "Stocks" }))

/-- analysis.py lines 186-188: the dividend total, summing Amount over rows whose
Action contains DIVIDEND case-insensitively, 0 when there is no history. -/
def totalDividends (hist : Option (List HistRow)) : ℚ :=
  match hist with
  | none => 0
  | some rows =>
    ((rows.filter (fun r => containsStr (upStr r.action) "DIVIDEND")).map
      (fun r => r.amount)).sum

/-- analysis.py lines 223-229: the fixed factor table, in iteration order. -/
def factors : List (String × List String) :=
  [("Growth/Tech", ["NVDA", "QQQ", "ARKK", "SOFI", "HOOD", "NET", "ZETA", "ONTO",
      "AMZN", "GOOG", "MSFT", "AAPL", "TSM", "NBIS", "OSCR", "PYPL", "JD", "BABA",
      "BIDU", "REGN"]),
   ("Market/Core", ["VOO", "SPY", "BRKB", "VUG", "VTI", "VXUS", "ALLW"]),
   ("Income/Yield", ["JEPI", "JEPQ", "TLT", "EPD", "ET", "MPLX", "DKL", "PALL"]),
   ("Defensive", ["COST", "UPS", "UNH"]),
   ("Cash/Equivalents", ["SPAXX", "FDRXX"])]

/-- The first factor whose list contains the symbol, in table order (lines
243-248); none when the symbol matches no factor list. -/
def firstFactor (s : String) : Option String :=
  (factors.find? (fun f => f.2.contains s)).map (fun f => f.1)

/-- Weight of one held symbol (lines 235-241 and 265-268): its Current Value when
a positions dataframe exists and the symbol has metadata, else its raw quantity. -/
def weightOf (st : AnalyzerState) (s : String) (q : ℚ) : ℚ :=
  if st.positions_df.isSome then
    match alGet st.holdings_data s with
    | some d => d.currentValue
    | none => q
  else q

/-- The exposure dict right after initialisation (lines 231-233): Unclassified
first, then each factor in table order, all zero. -/
def exposureInit : List (String × ℚ) :=
  ("Unclassified", 0) :: factors.map (fun f => (f.1, 0))

/-- analysis.py lines 238-250: one held symbol accumulated into the exposure dict,
into its first matching factor or the Unclassified catch-all. -/
def exposureStep (st : AnalyzerState) (ex : List (String × ℚ)) (e : String × ℚ) :
    List (String × ℚ) :=
  let val := weightOf st e.1 e.2
  match firstFactor e.1 with
  | some f => alSet ex f ((alGet ex f).getD 0 + val)
  | none => alSet ex "Unclassified" ((alGet ex "Unclassified").getD 0 + val)

/-- analysis.py lines 222-252, get_factor_exposure: the fold over holdings followed
by the final comprehension keeping buckets with value strictly above zero. -/
def getFactorExposure (st : AnalyzerState) : List (String × ℚ) :=
  (st.holdings.foldl (exposureStep st) exposureInit).filter (fun kv => decide (0 < kv.2))

/-- The advisories of generate_tweaks, as structured values: the percentage string
formatting of the message text is presentation and not modelled; a concentration
advisory carries the symbol and its weight fraction of total exposure. -/
inductive Tweak where
  | diversify : Tweak
  | concentration (symbol : String) (weight : ℚ) : Tweak
  | growthBalance : Tweak
deriving DecidableEq

/-- generate_tweaks line 260: total exposure is the sum of the surviving factor
exposure values. -/
def totalExposure (st : AnalyzerState) : ℚ :=
  ((getFactorExposure st).map (fun kv => kv.2)).sum

/-- generate_tweaks lines 264-271: the (symbol, value) pairs sorted by descending
value; the Python sort is stable and so is insertion sort. -/
def sortedHoldings (st : AnalyzerState) : List (String × ℚ) :=
  List.insertionSort (fun a b => b.2 ≤ a.2)
    (st.holdings.map (fun e => (e.1, weightOf st e.1 e.2)))

/-- analysis.py lines 254-283, generate_tweaks, in emission order: diversification
below five positions, then one concentration advisory per non-exempt symbol whose
weight fraction strictly exceeds 0.15 (only when total exposure is positive, in
descending weight order), then the Growth/Tech balance advisory. -/
def generateTweaks (st : AnalyzerState) : List Tweak :=
  let t1 : List Tweak := if st.holdings.length < 5 then [Tweak.diversify] else []
  let total := totalExposure st
  let t2 : List Tweak :=
    if 0 < total then
      (sortedHoldings st).filterMap (fun e =>
        let w := e.2 / total
        if e.1 ≠ "SPAXX" ∧ e.1 ≠ "FDRXX" ∧ 3 / 20 < w then
          some (Tweak.concentration e.1 w)
        else none)
    else []
  let t3 : List Tweak :=
    match alGet (getFactorExposure st) "Growth/Tech" with
    | some g => if total * (1 / 2) < g then [Tweak.growthBalance] else []
    | none => []
  t1 ++ t2 ++ t3

/-- Sum of the weights of the held entries that the classification assigns to
bucket b, where b = none is the Unclassified catch-all. -/
def bucketSum (st : AnalyzerState) (b : Option String) (hs : HoldingsMap) : ℚ :=
  (hs.map (fun e => if firstFactor e.1 = b then weightOf st e.1 e.2 else 0)).sum

/-- Total portfolio exposure: every held symbol weighted once. -/
def totalWeight (st : AnalyzerState) : ℚ :=
  (st.holdings.map (fun e => weightOf st e.1 e.2)).sum

/-! Shared helper lemmas about the dict primitives. -/

@[simp] theorem alGet_alSet_self {α : Type} (m : List (String × α)) (k : String) (v : α) :
    alGet (alSet m k v) k = some v := by
  induction m with
  | nil => simp [alGet, alSet]
  | cons e t ih =>
    by_cases h : e.1 = k
    · simp [alGet, alSet, h]
    · simp [alGet, alSet, h, ih]

@[simp] theorem alGet_alErase_self {α : Type} (m : List (String × α)) (k : String) :
    alGet (alErase m k) k = none := by
  induction m with
  | nil => simp [alGet, alErase]
  | cons e t ih =>
    by_cases h : e.1 = k
    · simpa [alErase, h] using ih
    · simpa [alErase, alGet, h] using ih

theorem sum_map_filter_eq {α : Type} (p : α → Bool) (f : α → ℚ) (l : List α) :
    ((l.filter p).map f).sum = (l.map (fun a => if p a then f a else 0)).sum := by
  induction l with
  | nil => rfl
  | cons a t ih => by_cases h : p a <;> simp [h, ih]

/-- C2: when a position snapshot is supplied (and holdings start empty, as they do
on the load_data path), calculate_holdings computes the holdings map and the
per-symbol detail map from the snapshot rows alone: the transaction history can be
replaced by any other history without changing the result, and the result is
exactly the snapshot fold. -/
theorem snapshot_precedence (ps : List PositionRow) (h1 h2 : Option (List HistRow))
    (hd : DetailMap) :
    (calculateHoldings ⟨h1, some ps, [], hd⟩).holdings
        = (calculateHoldings ⟨h2, some ps, [], hd⟩).holdings
    ∧ (calculateHoldings ⟨h1, some ps, [], hd⟩).holdings_data
        = (calculateHoldings ⟨h2, some ps, [], hd⟩).holdings_data
    ∧ (calculateHoldings ⟨h1, some ps, [], hd⟩).holdings = (snapshotFold ps).1
    ∧ (calculateHoldings ⟨h1, some ps, [], hd⟩).holdings_data = (snapshotFold ps).2 := by
  simp [calculateHoldings]

/-- C9: the dividend total equals the sum of Amount over exactly the rows whose
Action contains the substring DIVIDEND case-insensitively, is 0 when no
transaction stream exists, and the two-row scenario of the spec yields 12.50. -/
theorem dividend_total_spec :
    totalDividends none = 0
    ∧ (∀ rows : List HistRow,
        totalDividends (some rows)
          = (rows.map (fun r =>
              if containsStr (upStr r.action) "DIVIDEND" then r.amount else 0)).sum)
    ∧ totalDividends (some
        [{ date := 0, action := "DIVIDEND RECEIVED", symbol := "AAPL", quantity := "",
           price := "", currency := "", amount := 12.5 },
         { date := 0, action := "BOUGHT", symbol := "AAPL", quantity := "",
           price := "", currency := "", amount := -100 }]) = 12.5 := by
  refine ⟨rfl, fun rows => ?_, ?_⟩
  · simpa [totalDividends] using
      sum_map_filter_eq (fun r : HistRow => containsStr (upStr r.action) "DIVIDEND")
        (fun r : HistRow => r.amount) rows
  · have h1 : containsStr (upStr "DIVIDEND RECEIVED") "DIVIDEND" = true := by decide
    have h2 : containsStr (upStr "BOUGHT") "DIVIDEND" = false := by decide
    simp [totalDividends, h1, h2]

/-- C10: with a positions dataframe present, calculate_holdings leaves a non-empty
holdings map and its detail map untouched; it is idempotent on the snapshot path;
and the holdings reconstructed by the retail-orders loader are never overwritten
by its mock positions dataframe. -/
theorem calculate_holdings_skip (st : AnalyzerState) (ps : List PositionRow)
    (hps : st.positions_df = some ps) :
    (st.holdings ≠ [] → calculateHoldings st = st)
    ∧ calculateHoldings (calculateHoldings st) = calculateHoldings st
    ∧ (∀ (rows : List OrderRow) (hist : Option (List HistRow)),
        (loadRobinhood rows).1 ≠ [] →
        calculateHoldings
            ⟨hist, some (loadRobinhood rows).2.2, (loadRobinhood rows).1,
              (loadRobinhood rows).2.1⟩
          = ⟨hist, some (loadRobinhood rows).2.2, (loadRobinhood rows).1,
              (loadRobinhood rows).2.1⟩) := by
  refine ⟨?_, ?_, ?_⟩
  · intro h
    have hne : st.holdings.isEmpty = false := by
      simpa [List.isEmpty_iff] using h
    simp [calculateHoldings, hps, hne]
  · have key : ∀ s2 : AnalyzerState, s2.positions_df = some ps →
        calculateHoldings s2
          = if s2.holdings.isEmpty
            then { s2 with holdings := (snapshotFold ps).1,
                           holdings_data := (snapshotFold ps).2 }
            else s2 := by
      intro s2 h2
      by_cases hh : s2.holdings.isEmpty <;> simp [calculateHoldings, h2, hh]
    rw [key st hps]
    by_cases hemp : st.holdings.isEmpty
    · rw [if_pos hemp,
        key { st with holdings := (snapshotFold ps).1,
                      holdings_data := (snapshotFold ps).2 } hps]
      by_cases h2 : (snapshotFold ps).1.isEmpty
      · rw [if_pos h2]
      · rw [if_neg h2]
    · rw [if_neg hemp, key st hps, if_neg hemp]
  · intro rows hist h
    have hne : (loadRobinhood rows).1.isEmpty = false := by
      simpa [List.isEmpty_iff] using h
    simp [calculateHoldings, hne]

/-- C10 witness: a state with non-empty holdings and a positions dataframe is
returned unchanged. -/
theorem calculate_holdings_skip_witness :
    calculateHoldings ⟨none, some [], [("AAPL", 5)], []⟩
      = ⟨none, some [], [("AAPL", 5)], []⟩ :=
  (calculate_holdings_skip ⟨none, some [], [("AAPL", 5)], []⟩ [] rfl).1 (by simp)

/-- C7 (amended): an unreadable history input fails the whole run (load_data
returns False), while an unreadable positions input is caught and the run
continues with positions_df left as None. -/
theorem load_error_policy :
    (∀ (msg : String) (pos : Option (Except String (List PositionRow))),
        loadData (Except.error msg) pos = none)
    ∧ (∀ (raws : List RawHistRow) (hist : List HistRow) (msg : String),
        loadHistory raws = Except.ok hist →
        loadData (Except.ok raws) (some (Except.error msg)) = some (hist, none)) := by
  constructor
  · intro msg pos; rfl
  · intro raws hist msg h; simp [loadData, h]

/-- C7 witness: a readable empty history with an unreadable positions file loads
successfully without positions. -/
theorem load_error_policy_witness :
    loadData (Except.ok []) (some (Except.error "boom")) = some ([], none) :=
  load_error_policy.2 [] [] "boom" rfl

/-- C7 counterexample: an input whose position-snapshot file is structurally
unreadable does not fail the run; the failure is swallowed and the analysis
continues on the history alone, contradicting the claim that every structurally
unreadable input surfaces as a run-level error. -/
theorem load_error_policy_cex :
    loadData (Except.ok []) (some (Except.error "cannot parse")) = some ([], none)
    ∧ loadData (Except.ok []) (some (Except.error "cannot parse")) ≠ none := by
  constructor
  · rfl
  · simp [loadData, loadHistory, repairHistory]

/-- C3: schema repair on the legacy history. When any Quantity cell contains the
substring USD, every row of the file has Quantity re-bound to the old Price value
and Price re-bound to the old Currency value, all other fields untouched; with no
USD anywhere the file is left unchanged; and the end-to-end shifted scenario with
a BOUGHT NVDA row whose Price column holds 10 replays to holdings NVDA = 10. -/
theorem schema_repair_spec (rows : List RawHistRow) :
    ((rows.any (fun r => containsStr r.quantity "USD")) = true →
        repairHistory rows = rows.map shiftFix)
    ∧ (∀ r : RawHistRow,
        (shiftFix r).quantity = r.price ∧ (shiftFix r).price = r.currency
        ∧ (shiftFix r).runDate = r.runDate ∧ (shiftFix r).action = r.action
        ∧ (shiftFix r).symbol = r.symbol ∧ (shiftFix r).amount = r.amount)
    ∧ ((rows.any (fun r => containsStr r.quantity "USD")) = false →
        repairHistory rows = rows)
    ∧ (∃ hist, loadHistory
        [{ runDate := some 0, action := "YOU BOUGHT", symbol := "NVDA",
           quantity := "USD", price := "10", currency := "100", amount := "0" }]
        = Except.ok hist ∧ alGet (legacyReplay hist) "NVDA" = some 10) := by
  refine ⟨fun h => by simp [repairHistory, h],
    fun r => ⟨rfl, rfl, rfl, rfl, rfl, rfl⟩,
    fun h => by simp [repairHistory, h], ?_⟩
  refine ⟨_, rfl, ?_⟩
  have hq : qtyOf "10" = 10 := by
    have hp : pyParse? "10" = some ⟨false, 10, 0, 0⟩ := by decide
    have hs : stripChars [Char.ofNat 44] "10" = "10" := by decide
    simp [qtyOf, pyFloat?, hs, hp, ratOfParts]
  have hb : containsStr (upStr "YOU BOUGHT") "BOUGHT" = true := by decide
  simp [legacyReplay, replayStep, shiftFix, hb, hq, alGet, alSet]

/-- C3 witness: the repair rewrites a concrete shifted one-row file. -/
theorem schema_repair_spec_witness :
    repairHistory
        [{ runDate := some 0, action := "YOU BOUGHT", symbol := "NVDA",
           quantity := "USD", price := "10", currency := "100", amount := "0" }]
      = List.map shiftFix
        [{ runDate := some 0, action := "YOU BOUGHT", symbol := "NVDA",
           quantity := "USD", price := "10", currency := "100", amount := "0" }] :=
  (schema_repair_spec _).1 (by decide)

/-- C5 (amended): in the legacy replay, rows whose action contains BOUGHT or
REINVESTMENT add the signed Quantity to the running total; rows whose action
contains SOLD (and neither of the former) likewise add the signed Quantity - the
legacy export encodes sell quantities as negative numbers, so adding subtracts
the magnitude - and afterwards the symbol is removed exactly when the running
total is at most zero; replaying BOUGHT AAPL 10 then SOLD AAPL -10 leaves AAPL
absent from the final holdings. -/
theorem replay_step_spec (h : HoldingsMap) (row : HistRow) :
    (containsStr (upStr row.action) "BOUGHT" = true
        ∨ containsStr (upStr row.action) "REINVESTMENT" = true →
      alGet (replayStep h row) row.symbol
        = some ((alGet h row.symbol).getD 0 + qtyOf row.quantity))
    ∧ (containsStr (upStr row.action) "BOUGHT" = false →
        containsStr (upStr row.action) "REINVESTMENT" = false →
        containsStr (upStr row.action) "SOLD" = true →
        ((0 < (alGet h row.symbol).getD 0 + qtyOf row.quantity →
            alGet (replayStep h row) row.symbol
              = some ((alGet h row.symbol).getD 0 + qtyOf row.quantity))
          ∧ ((alGet h row.symbol).getD 0 + qtyOf row.quantity ≤ 0 →
            alGet (replayStep h row) row.symbol = none)))
    ∧ alGet (legacyReplay
        [{ date := 0, action := "YOU BOUGHT", symbol := "AAPL", quantity := "10",
           price := "", currency := "", amount := 0 },
         { date := 1, action := "YOU SOLD", symbol := "AAPL", quantity := "-10",
           price := "", currency := "", amount := 0 }]) "AAPL" = none := by
  refine ⟨?_, ?_, ?_⟩
  · intro hor
    rcases hor with hb | hr
    · simp [replayStep, hb]
    · simp [replayStep, hr]
  · intro h1 h2 h3
    constructor
    · intro hv
      simp [replayStep, h1, h2, h3, not_le.2 hv]
    · intro hv
      simp [replayStep, h1, h2, h3, hv]
  · have hq10 : qtyOf "10" = 10 := by
      have hp : pyParse? "10" = some ⟨false, 10, 0, 0⟩ := by decide
      have hs : stripChars [Char.ofNat 44] "10" = "10" := by decide
      simp [qtyOf, pyFloat?, hs, hp, ratOfParts]
    have hqm : qtyOf "-10" = -10 := by
      have hp : pyParse? "-10" = some ⟨true, 10, 0, 0⟩ := by decide
      have hs : stripChars [Char.ofNat 44] "-10" = "-10" := by decide
      simp [qtyOf, pyFloat?, hs, hp, ratOfParts]
    have hb1 : containsStr (upStr "YOU BOUGHT") "BOUGHT" = true := by decide
    have hb2 : containsStr (upStr "YOU SOLD") "BOUGHT" = false := by decide
    have hr2 : containsStr (upStr "YOU SOLD") "REINVESTMENT" = false := by decide
    have hs2 : containsStr (upStr "YOU SOLD") "SOLD" = true := by decide
    simp [legacyReplay, replayStep, hb1, hb2, hr2, hs2, hq10, hqm, alSet, alGet]

/-- C5 witness: a concrete BOUGHT row adds its quantity to the running total. -/
theorem replay_step_spec_witness :
    alGet (replayStep []
        { date := 0, action := "YOU BOUGHT", symbol := "NVDA", quantity := "5",
          price := "", currency := "", amount := 0 }) "NVDA"
      = some ((alGet ([] : HoldingsMap) "NVDA").getD 0 + qtyOf "5") :=
  (replay_step_spec [] _).1 (Or.inl (by decide))

/-- C5 counterexample: replaying BOUGHT AAPL 10 then SOLD AAPL 10, with the
Quantity field 10 on both rows as the claim words the scenario, leaves AAPL
present with quantity 20: the SOLD branch adds the Quantity field instead of
subtracting it, so the claimed absence of AAPL is false. -/
theorem replay_sell_cex :
    legacyReplay
        [{ date := 0, action := "YOU BOUGHT", symbol := "AAPL", quantity := "10",
           price := "", currency := "", amount := 0 },
         { date := 1, action := "YOU SOLD", symbol := "AAPL", quantity := "10",
           price := "", currency := "", amount := 0 }]
      = [("AAPL", 20)] := by
  have hq10 : qtyOf "10" = 10 := by
    have hp : pyParse? "10" = some ⟨false, 10, 0, 0⟩ := by decide
    have hs : stripChars [Char.ofNat 44] "10" = "10" := by decide
    simp [qtyOf, pyFloat?, hs, hp, ratOfParts]
  have hb1 : containsStr (upStr "YOU BOUGHT") "BOUGHT" = true := by decide
  have hb2 : containsStr (upStr "YOU SOLD") "BOUGHT" = false := by decide
  have hr2 : containsStr (upStr "YOU SOLD") "REINVESTMENT" = false := by decide
  have hs2 : containsStr (upStr "YOU SOLD") "SOLD" = true := by decide
  simp [legacyReplay, replayStep, hb1, hb2, hr2, hs2, hq10, alSet, alGet]
  norm_num

/-- C1 (amended): only the retail-orders replay enforces the tolerance invariant:
every symbol in the holdings it returns has quantity strictly above 0.001. The
snapshot fold copies quantities verbatim and the legacy replay prunes only after
SOLD rows, so those paths do not enforce it (see the counterexample). -/
theorem retail_tolerance (rows : List OrderRow) (s : String) (q : ℚ)
    (hmem : (s, q) ∈ (loadRobinhood rows).1) : 1 / 1000 < q := by
  simp only [loadRobinhood, List.mem_filter, decide_eq_true_eq] at hmem
  exact hmem.2

/-- C1 witness: one filled buy order of ten shares survives the tolerance filter. -/
theorem retail_tolerance_witness :
    (("AAPL", (10 : ℚ)) ∈ (loadRobinhood
        [{ symbol := "AAPL", side := "buy", state := "filled",
           quantity := 10, price := 100 }]).1)
    ∧ (1 : ℚ) / 1000 < 10 := by
  have hu : upStr "AAPL" = "AAPL" := by decide
  have hl : lowStr "buy" = "buy" := by decide
  have hm : ("AAPL", (10 : ℚ)) ∈ (loadRobinhood
      [{ symbol := "AAPL", side := "buy", state := "filled",
         quantity := 10, price := 100 }]).1 := by
    simp [loadRobinhood, robinhoodStep, hu, hl, alSet, alGet, List.filter]
    norm_num
  exact ⟨hm, retail_tolerance _ "AAPL" 10 hm⟩

/-- C1 counterexample: a snapshot row with quantity 0 is copied verbatim into the
holdings map, so the snapshot path keeps a zero entry, contradicting the claim
that on every input path the final holdings only hold quantities above 0.001. -/
theorem holdings_tolerance_cex :
    (calculateHoldings ⟨none,
        some [{ symbol := "XYZ", quantity := 0, currentValue := 0,
                investmentType := "Stocks" }], [], []⟩).holdings
      = [("XYZ", 0)]
    ∧ ¬ ((1 : ℚ) / 1000 < 0) := by
  constructor
  · have h1 : containsStr "XYZ" "Pending activity" = false := by decide
    have h2 : stripChars [Char.ofNat 42] "XYZ" = "XYZ" := by decide
    simp [calculateHoldings, snapshotFold, snapshotStep, alSet, h1, h2]
  · norm_num

/-- C6 (amended): the Amount column has dollar signs and commas stripped before
float conversion, but an unparseable cell is not coerced to 0.0: astype raises,
the try/except catches it, and the whole history load fails, load_data returning
False for the run. A parseable cell like a dollar amount with separators is
stripped and parsed to its numeric value. -/
theorem amount_parse_spec :
    (∀ raws : List RawHistRow,
      (∃ r ∈ (repairHistory raws).filter (fun r => r.runDate.isSome),
          pyFloat? (stripMoney r.amount) = none) →
        loadHistory raws = Except.error "could not convert string to float"
        ∧ ∀ pos, loadData (Except.ok raws) pos = none)
    ∧ (∃ hist, loadHistory
        [{ runDate := some 0, action := "X", symbol := "S", quantity := "1",
           price := "", currency := "", amount := "$1,234.50" }]
        = Except.ok hist
        ∧ hist.map (fun r => r.amount) = [2469 / 2]) := by
  constructor
  · intro raws hex
    have hall : ¬ (((repairHistory raws).filter (fun r => r.runDate.isSome)).all
        (fun r => (pyFloat? (stripMoney r.amount)).isSome) = true) := by
      rcases hex with ⟨r, hr, hnone⟩
      simp only [List.all_eq_true]
      intro hforall
      have := hforall r hr
      rw [hnone] at this
      simp at this
    have herr : loadHistory raws = Except.error "could not convert string to float" := by
      unfold loadHistory
      rw [if_neg hall]
    exact ⟨herr, fun pos => by simp [loadData, herr]⟩
  · refine ⟨_, rfl, ?_⟩
    have hp : pyParse? (stripMoney "$1,234.50") = some ⟨false, 1234, 50, 2⟩ := by decide
    simp [pyFloat?, hp, ratOfParts]
    norm_num

/-- C6 witness: a one-row history whose Amount cell is not numeric fails to load. -/
theorem amount_parse_spec_witness :
    loadHistory
        [{ runDate := some 0, action := "X", symbol := "S", quantity := "1",
           price := "", currency := "", amount := "N/A" }]
      = Except.error "could not convert string to float" :=
  (amount_parse_spec.1 _
    ⟨{ runDate := some 0, action := "X", symbol := "S", quantity := "1",
       price := "", currency := "", amount := "N/A" },
     by decide, by decide⟩).1

/-- C6 counterexample: on a row whose Amount is unparseable after stripping, the
run is aborted (load_data returns False, modelled none) instead of the value
becoming 0.0 with the run continuing as the claim states. -/
theorem amount_parse_cex :
    loadData
        (Except.ok
          [{ runDate := some 0, action := "X", symbol := "S", quantity := "1",
             price := "", currency := "", amount := "N/A" }]) none
      = none := by
  rfl

/-! Helper lemmas for the factor-exposure fold. -/

theorem firstFactor_of_some (s f : String) (h : firstFactor s = some f) :
    f = "Growth/Tech" ∨ f = "Market/Core" ∨ f = "Income/Yield"
      ∨ f = "Defensive" ∨ f = "Cash/Equivalents" := by
  unfold firstFactor at h
  cases hf : factors.find? (fun p => p.2.contains s) with
  | none => rw [hf] at h; simp at h
  | some x =>
    rw [hf] at h
    simp at h
    have hx : x ∈ factors := List.mem_of_find?_eq_some hf
    subst h
    fin_cases hx <;> simp

theorem exposure_foldl (st : AnalyzerState) (hs : HoldingsMap) :
    ∀ u g m i d c : ℚ,
      hs.foldl (exposureStep st)
        [("Unclassified", u), ("Growth/Tech", g), ("Market/Core", m),
         ("Income/Yield", i), ("Defensive", d), ("Cash/Equivalents", c)]
      = [("Unclassified", u + bucketSum st none hs),
         ("Growth/Tech", g + bucketSum st (some "Growth/Tech") hs),
         ("Market/Core", m + bucketSum st (some "Market/Core") hs),
         ("Income/Yield", i + bucketSum st (some "Income/Yield") hs),
         ("Defensive", d + bucketSum st (some "Defensive") hs),
         ("Cash/Equivalents", c + bucketSum st (some "Cash/Equivalents") hs)] := by
  induction hs with
  | nil => intro u g m i d c; simp [bucketSum]
  | cons e t ih =>
    intro u g m i d c
    rw [List.foldl_cons]
    rcases hf : firstFactor e.1 with _ | f
    · simp [exposureStep, hf, alGet, alSet]
      rw [ih]
      simp [bucketSum, hf, add_assoc]
    · rcases firstFactor_of_some e.1 f hf with h | h | h | h | h <;> subst h <;>
        (simp [exposureStep, hf, alGet, alSet]
         rw [ih]
         simp [bucketSum, hf, add_assoc])

theorem getFactorExposure_eq (st : AnalyzerState) :
    getFactorExposure st
      = ([("Unclassified", bucketSum st none st.holdings),
          ("Growth/Tech", bucketSum st (some "Growth/Tech") st.holdings),
          ("Market/Core", bucketSum st (some "Market/Core") st.holdings),
          ("Income/Yield", bucketSum st (some "Income/Yield") st.holdings),
          ("Defensive", bucketSum st (some "Defensive") st.holdings),
          ("Cash/Equivalents", bucketSum st (some "Cash/Equivalents") st.holdings)]).filter
        (fun kv => decide (0 < kv.2)) := by
  have hinit : exposureInit
      = [("Unclassified", 0), ("Growth/Tech", 0), ("Market/Core", 0),
         ("Income/Yield", 0), ("Defensive", 0), ("Cash/Equivalents", 0)] := rfl
  unfold getFactorExposure
  rw [hinit, exposure_foldl]
  simp

theorem weight_partition (st : AnalyzerState) (hs : HoldingsMap) :
    (hs.map (fun e => weightOf st e.1 e.2)).sum
      = bucketSum st none hs + bucketSum st (some "Growth/Tech") hs
        + bucketSum st (some "Market/Core") hs + bucketSum st (some "Income/Yield") hs
        + bucketSum st (some "Defensive") hs + bucketSum st (some "Cash/Equivalents") hs := by
  induction hs with
  | nil => simp [bucketSum]
  | cons e t ih =>
    rcases hf : firstFactor e.1 with _ | f
    · simp [bucketSum, hf] at ih ⊢
      linarith [ih]
    · rcases firstFactor_of_some e.1 f hf with h | h | h | h | h <;> subst h <;>
        (simp [bucketSum, hf] at ih ⊢
         linarith [ih])

theorem bucketSum_nonneg (st : AnalyzerState) (b : Option String) (hs : HoldingsMap)
    (h : ∀ e ∈ hs, 0 ≤ weightOf st e.1 e.2) : 0 ≤ bucketSum st b hs := by
  apply List.sum_nonneg
  intro x hx
  simp only [List.mem_map] at hx
  obtain ⟨e, he, rfl⟩ := hx
  by_cases hf : firstFactor e.1 = b
  · simpa [hf] using h e he
  · simp [hf]

theorem sum_filter_le (p : String × ℚ → Bool) (l : List (String × ℚ))
    (hl : ∀ kv ∈ l, 0 ≤ kv.2) :
    ((l.filter p).map (fun kv => kv.2)).sum ≤ (l.map (fun kv => kv.2)).sum := by
  induction l with
  | nil => simp
  | cons a t ih =>
    have ha : (0 : ℚ) ≤ a.2 := hl a (by simp)
    have ht : ∀ kv ∈ t, 0 ≤ kv.2 := fun kv hkv => hl kv (by simp [hkv])
    by_cases hp : p a
    · simp only [List.filter_cons, hp, if_true, List.map_cons, List.sum_cons]
      exact add_le_add le_rfl (ih ht)
    · simp only [List.filter_cons, hp, if_false, List.map_cons, List.sum_cons,
        Bool.false_eq_true]
      calc ((t.filter p).map (fun kv => kv.2)).sum
          ≤ (t.map (fun kv => kv.2)).sum := ih ht
        _ ≤ a.2 + (t.map (fun kv => kv.2)).sum := le_add_of_nonneg_left ha

/-- C8 (amended): the factor exposure equals the six-bucket table - each held
entry weighted into the first matching factor of the table order, or the
Unclassified catch-all - filtered to the buckets with positive value; a symbol
lands in Unclassified exactly when it appears in none of the five factor lists;
and, provided every held weight is nonnegative (which a snapshot with short or
negative-value positions can violate, see the counterexample), the returned
factor values sum to at most the total portfolio exposure. -/
theorem factor_exposure_spec (st : AnalyzerState) :
    (getFactorExposure st
      = ([("Unclassified", bucketSum st none st.holdings),
          ("Growth/Tech", bucketSum st (some "Growth/Tech") st.holdings),
          ("Market/Core", bucketSum st (some "Market/Core") st.holdings),
          ("Income/Yield", bucketSum st (some "Income/Yield") st.holdings),
          ("Defensive", bucketSum st (some "Defensive") st.holdings),
          ("Cash/Equivalents", bucketSum st (some "Cash/Equivalents") st.holdings)]).filter
        (fun kv => decide (0 < kv.2)))
    ∧ (∀ s : String, firstFactor s = none ↔ ∀ p ∈ factors, s ∉ p.2)
    ∧ ((∀ e ∈ st.holdings, 0 ≤ weightOf st e.1 e.2) →
        ((getFactorExposure st).map (fun kv => kv.2)).sum ≤ totalWeight st) := by
  refine ⟨getFactorExposure_eq st, ?_, ?_⟩
  · intro s
    unfold firstFactor
    constructor
    · intro h p hp
      rcases hfind : factors.find? (fun q => q.2.contains s) with _ | x
      · have := List.find?_eq_none.1 hfind p hp
        simpa using this
      · rw [hfind] at h; simp at h
    · intro h
      have hfind : factors.find? (fun q => q.2.contains s) = none := by
        rw [List.find?_eq_none]
        intro p hp
        simpa using h p hp
      rw [hfind]
      rfl
  · intro hw
    have hnn : ∀ kv ∈
        [("Unclassified", bucketSum st none st.holdings),
         ("Growth/Tech", bucketSum st (some "Growth/Tech") st.holdings),
         ("Market/Core", bucketSum st (some "Market/Core") st.holdings),
         ("Income/Yield", bucketSum st (some "Income/Yield") st.holdings),
         ("Defensive", bucketSum st (some "Defensive") st.holdings),
         ("Cash/Equivalents", bucketSum st (some "Cash/Equivalents") st.holdings)],
        (0 : ℚ) ≤ kv.2 := by
      intro kv hkv
      simp only [List.mem_cons, List.not_mem_nil, or_false] at hkv
      rcases hkv with h | h | h | h | h | h <;>
        (subst h; exact bucketSum_nonneg st _ st.holdings hw)
    have h1 := sum_filter_le (fun kv => decide (0 < kv.2)) _ hnn
    have h2 : (([("Unclassified", bucketSum st none st.holdings),
         ("Growth/Tech", bucketSum st (some "Growth/Tech") st.holdings),
         ("Market/Core", bucketSum st (some "Market/Core") st.holdings),
         ("Income/Yield", bucketSum st (some "Income/Yield") st.holdings),
         ("Defensive", bucketSum st (some "Defensive") st.holdings),
         ("Cash/Equivalents", bucketSum st (some "Cash/Equivalents") st.holdings)]).map
        (fun kv => kv.2)).sum = totalWeight st := by
      have := weight_partition st st.holdings
      simp only [List.map_cons, List.map_nil, List.sum_cons, List.sum_nil]
      unfold totalWeight
      linarith [this]
    rw [getFactorExposure_eq]
    calc (((([("Unclassified", bucketSum st none st.holdings),
         ("Growth/Tech", bucketSum st (some "Growth/Tech") st.holdings),
         ("Market/Core", bucketSum st (some "Market/Core") st.holdings),
         ("Income/Yield", bucketSum st (some "Income/Yield") st.holdings),
         ("Defensive", bucketSum st (some "Defensive") st.holdings),
         ("Cash/Equivalents", bucketSum st (some "Cash/Equivalents") st.holdings)]).filter
          (fun kv => decide (0 < kv.2))).map (fun kv => kv.2)).sum)
        ≤ _ := h1
      _ = totalWeight st := h2

/-- C8 witness: a quantity-weighted single-holding state has nonnegative weights
and its surviving exposure is bounded by the total. -/
theorem factor_exposure_spec_witness :
    ((getFactorExposure ⟨none, none, [("AAPL", 2)], []⟩).map (fun kv => kv.2)).sum
      ≤ totalWeight ⟨none, none, [("AAPL", 2)], []⟩ :=
  (factor_exposure_spec ⟨none, none, [("AAPL", 2)], []⟩).2.2 (by
    intro e he
    simp only [List.mem_cons, List.not_mem_nil, or_false] at he
    subst he
    norm_num [weightOf])

/-- C8 counterexample: a snapshot with a short NVDA position (negative value) and
a long unclassified position makes the surviving factor values sum to 1000 while
the total portfolio exposure is only 500, so the claimed bound fails. -/
theorem factor_exposure_cex :
    (let st := calculateHoldings ⟨none,
        some [{ symbol := "NVDA", quantity := -5, currentValue := -500,
                investmentType := "Stocks" },
              { symbol := "XYZ", quantity := 10, currentValue := 1000,
                investmentType := "Stocks" }], [], []⟩
     ((getFactorExposure st).map (fun kv => kv.2)).sum = 1000
     ∧ totalWeight st = 500
     ∧ ¬ ((getFactorExposure st).map (fun kv => kv.2)).sum ≤ totalWeight st) := by
  dsimp only
  have h1 : containsStr "NVDA" "Pending activity" = false := by decide
  have h2 : containsStr "XYZ" "Pending activity" = false := by decide
  have hs1 : stripChars [Char.ofNat 42] "NVDA" = "NVDA" := by decide
  have hs2 : stripChars [Char.ofNat 42] "XYZ" = "XYZ" := by decide
  have hf1 : firstFactor "NVDA" = some "Growth/Tech" := by decide
  have hf2 : firstFactor "XYZ" = none := by decide
  have hst : calculateHoldings ⟨none,
      some [{ symbol := "NVDA", quantity := -5, currentValue := -500,
              investmentType := "Stocks" },
            { symbol := "XYZ", quantity := 10, currentValue := 1000,
              investmentType := "Stocks" }], [], []⟩
      = ⟨none,
         some [{ symbol := "NVDA", quantity := -5, currentValue := -500,
                 investmentType := "Stocks" },
               { symbol := "XYZ", quantity := 10, currentValue := 1000,
                 investmentType := "Stocks" }],
         [("NVDA", -5), ("XYZ", 10)],
         [("NVDA", { currentValue := -500, investmentType := "Stocks" }),
          ("XYZ", { currentValue := 1000, investmentType := "Stocks" })]⟩ := by
    simp [calculateHoldings, snapshotFold, snapshotStep, alSet, detailOfRow,
      h1, h2, hs1, hs2]
  rw [hst, getFactorExposure_eq]
  refine ⟨?_, ?_, ?_⟩
  · simp [bucketSum, hf1, hf2, weightOf, alGet]
  · simp [totalWeight, weightOf, alGet]
    norm_num
  · simp [bucketSum, totalWeight, hf1, hf2, weightOf, alGet]

/-- The concentration-advisory membership characterisation shared by the C4
statements: an advisory for s with fraction w is emitted iff total exposure is
positive, s is not exempt, w is the weight fraction of a held entry for s, and w
strictly exceeds 0.15. -/
theorem concentration_mem_iff (st : AnalyzerState) (s : String) (w : ℚ) :
    Tweak.concentration s w ∈ generateTweaks st ↔
      (0 < totalExposure st ∧ s ≠ "SPAXX" ∧ s ≠ "FDRXX" ∧ 3 / 20 < w ∧
        ∃ q : ℚ, (s, q) ∈ st.holdings ∧ w = weightOf st s q / totalExposure st) := by
  by_cases htot : 0 < totalExposure st
  · simp only [generateTweaks, if_pos htot, List.mem_append, List.mem_filterMap]
    constructor
    · rintro ((h1 | ⟨e, he, hfe⟩) | h3)
      · exfalso; revert h1; split <;> simp
      · revert hfe
        split
        next hcond =>
          intro hfe
          simp only [Option.some.injEq, Tweak.concentration.injEq] at hfe
          obtain ⟨hs, hw⟩ := hfe
          simp only [sortedHoldings] at he
          rw [List.mem_insertionSort, List.mem_map] at he
          obtain ⟨en, hen, rfl⟩ := he
          subst hs
          exact ⟨htot, hcond.1, hcond.2.1, hw ▸ hcond.2.2, en.2,
            by simpa using hen, hw.symm⟩
        next hcond =>
          intro hfe
          simp at hfe
      · exfalso
        revert h3
        rcases halg : alGet (getFactorExposure st) "Growth/Tech" with _ | g <;>
          simp only [halg]
        · simp
        · split <;> simp
    · rintro ⟨_, hs1, hs2, hw, q, hq, rfl⟩
      refine Or.inl (Or.inr ⟨(s, weightOf st s q), ?_, ?_⟩)
      · simp only [sortedHoldings]
        rw [List.mem_insertionSort]
        exact List.mem_map.2 ⟨(s, q), hq, rfl⟩
      · rw [if_pos ⟨hs1, hs2, hw⟩]
  · constructor
    · intro hmem
      exfalso
      revert hmem
      simp only [generateTweaks, if_neg htot, List.append_nil, List.mem_append]
      rintro (h1 | h3)
      · revert h1; split <;> simp
      · revert h3
        rcases halg : alGet (getFactorExposure st) "Growth/Tech" with _ | g <;>
          simp only [halg]
        · simp
        · split <;> simp
    · rintro ⟨h, _⟩
      exact absurd h htot

/-- C4 (amended): the concentration advisory is governed by a strict 15 percent
threshold on BOTH weighting paths - the code hard-codes weight > 0.15 whether the
weights come from snapshot values or from raw quantities - with the fixed
exemption list (SPAXX, FDRXX); a symbol at exactly a 15.00 percent value-weighted
share does not trigger the advisory, while one at 15.01 percent does. -/
theorem concentration_spec (st : AnalyzerState) (s : String) (w : ℚ) :
    (Tweak.concentration s w ∈ generateTweaks st ↔
      (0 < totalExposure st ∧ s ≠ "SPAXX" ∧ s ≠ "FDRXX" ∧ 3 / 20 < w ∧
        ∃ q : ℚ, (s, q) ∈ st.holdings ∧ w = weightOf st s q / totalExposure st))
    ∧ (∀ w2 : ℚ, Tweak.concentration "AAA" w2 ∉ generateTweaks (calculateHoldings
        ⟨none, some [{ symbol := "AAA", quantity := 1, currentValue := 15,
                       investmentType := "Stocks" },
                     { symbol := "BBB", quantity := 1, currentValue := 85,
                       investmentType := "Stocks" }], [], []⟩))
    ∧ Tweak.concentration "AAA" (1501 / 10000) ∈ generateTweaks (calculateHoldings
        ⟨none, some [{ symbol := "AAA", quantity := 1, currentValue := 1501,
                       investmentType := "Stocks" },
                     { symbol := "BBB", quantity := 1, currentValue := 8499,
                       investmentType := "Stocks" }], [], []⟩) := by
  have hpa : containsStr "AAA" "Pending activity" = false := by decide
  have hpb : containsStr "BBB" "Pending activity" = false := by decide
  have hsa : stripChars [Char.ofNat 42] "AAA" = "AAA" := by decide
  have hsb : stripChars [Char.ofNat 42] "BBB" = "BBB" := by decide
  have hfA : firstFactor "AAA" = none := by decide
  have hfB : firstFactor "BBB" = none := by decide
  refine ⟨concentration_mem_iff st s w, ?_, ?_⟩
  · have hstA : calculateHoldings
        ⟨none, some [{ symbol := "AAA", quantity := 1, currentValue := 15,
                       investmentType := "Stocks" },
                     { symbol := "BBB", quantity := 1, currentValue := 85,
                       investmentType := "Stocks" }], [], []⟩
        = ⟨none, some [{ symbol := "AAA", quantity := 1, currentValue := 15,
                         investmentType := "Stocks" },
                       { symbol := "BBB", quantity := 1, currentValue := 85,
                         investmentType := "Stocks" }],
           [("AAA", 1), ("BBB", 1)],
           [("AAA", { currentValue := 15, investmentType := "Stocks" }),
            ("BBB", { currentValue := 85, investmentType := "Stocks" })]⟩ := by
      simp [calculateHoldings, snapshotFold, snapshotStep, alSet, detailOfRow,
        hpa, hpb, hsa, hsb]
    rw [hstA]
    intro w2 hmem
    rw [concentration_mem_iff] at hmem
    obtain ⟨htot, -, -, hw, q, hq, hweq⟩ := hmem
    have htotA : totalExposure
        ⟨none, some [{ symbol := "AAA", quantity := 1, currentValue := 15,
                       investmentType := "Stocks" },
                     { symbol := "BBB", quantity := 1, currentValue := 85,
                       investmentType := "Stocks" }],
         [("AAA", 1), ("BBB", 1)],
         [("AAA", { currentValue := 15, investmentType := "Stocks" }),
          ("BBB", { currentValue := 85, investmentType := "Stocks" })]⟩ = 100 := by
      rw [totalExposure, getFactorExposure_eq]
      simp [bucketSum, hfA, hfB, weightOf, alGet]
      norm_num
    have hq1 : q = 1 := by
      simp only [List.mem_cons, List.not_mem_nil, or_false, Prod.mk.injEq] at hq
      rcases hq with ⟨-, h⟩ | ⟨h, -⟩
      · exact h
      · exact absurd h (by decide)
    subst hq1
    rw [htotA] at hweq
    have hwv : weightOf
        ⟨none, some [{ symbol := "AAA", quantity := 1, currentValue := 15,
                       investmentType := "Stocks" },
                     { symbol := "BBB", quantity := 1, currentValue := 85,
                       investmentType := "Stocks" }],
         [("AAA", 1), ("BBB", 1)],
         [("AAA", { currentValue := 15, investmentType := "Stocks" }),
          ("BBB", { currentValue := 85, investmentType := "Stocks" })]⟩ "AAA" 1
        = 15 := by
      simp [weightOf, alGet]
    rw [hwv] at hweq
    rw [hweq] at hw
    norm_num at hw
  · have hstB : calculateHoldings
        ⟨none, some [{ symbol := "AAA", quantity := 1, currentValue := 1501,
                       investmentType := "Stocks" },
                     { symbol := "BBB", quantity := 1, currentValue := 8499,
                       investmentType := "Stocks" }], [], []⟩
        = ⟨none, some [{ symbol := "AAA", quantity := 1, currentValue := 1501,
                         investmentType := "Stocks" },
                       { symbol := "BBB", quantity := 1, currentValue := 8499,
                         investmentType := "Stocks" }],
           [("AAA", 1), ("BBB", 1)],
           [("AAA", { currentValue := 1501, investmentType := "Stocks" }),
            ("BBB", { currentValue := 8499, investmentType := "Stocks" })]⟩ := by
      simp [calculateHoldings, snapshotFold, snapshotStep, alSet, detailOfRow,
        hpa, hpb, hsa, hsb]
    rw [hstB]
    have htotB : totalExposure
        ⟨none, some [{ symbol := "AAA", quantity := 1, currentValue := 1501,
                       investmentType := "Stocks" },
                     { symbol := "BBB", quantity := 1, currentValue := 8499,
                       investmentType := "Stocks" }],
         [("AAA", 1), ("BBB", 1)],
         [("AAA", { currentValue := 1501, investmentType := "Stocks" }),
          ("BBB", { currentValue := 8499, investmentType := "Stocks" })]⟩ = 10000 := by
      rw [totalExposure, getFactorExposure_eq]
      simp [bucketSum, hfA, hfB, weightOf, alGet]
      norm_num
    rw [concentration_mem_iff]
    refine ⟨by rw [htotB]; norm_num, by decide, by decide, by norm_num, 1, by simp, ?_⟩
    rw [htotB]
    simp [weightOf, alGet]

/-- C4 witness: the characterisation applied at a concrete quantity-weighted
state: the 82 percent symbol is flagged. -/
theorem concentration_spec_witness :
    Tweak.concentration "BBB" ((82 : ℚ) / 100)
      ∈ generateTweaks ⟨none, none, [("AAA", 18), ("BBB", 82)], []⟩ := by
  have hfA : firstFactor "AAA" = none := by decide
  have hfB : firstFactor "BBB" = none := by decide
  have htot : totalExposure ⟨none, none, [("AAA", 18), ("BBB", 82)], []⟩ = 100 := by
    rw [totalExposure, getFactorExposure_eq]
    simp [bucketSum, hfA, hfB, weightOf]
    norm_num
  refine (concentration_spec ⟨none, none, [("AAA", 18), ("BBB", 82)], []⟩ "BBB"
      ((82 : ℚ) / 100) ).1.2 ⟨by rw [htot]; norm_num, by decide, by decide,
    by norm_num, 82, by simp, ?_⟩
  rw [htot]
  simp [weightOf]

/-- C4 counterexample: on the quantity-weighted path (no snapshot), a symbol with
an 18 percent share - below the claimed 20 percent threshold for that path - does
receive a concentration advisory, because the code uses the same strict 0.15
threshold on both paths. -/
theorem concentration_cex :
    Tweak.concentration "AAA" ((18 : ℚ) / 100)
      ∈ generateTweaks ⟨none, none, [("AAA", 18), ("BBB", 82)], []⟩
    ∧ ((18 : ℚ) / 100) ≤ 20 / 100 := by
  have hfA : firstFactor "AAA" = none := by decide
  have hfB : firstFactor "BBB" = none := by decide
  have h1 : containsStr "AAA" "Pending activity" = false := by decide
  have htot : totalExposure ⟨none, none, [("AAA", 18), ("BBB", 82)], []⟩ = 100 := by
    rw [totalExposure, getFactorExposure_eq]
    simp [bucketSum, hfA, hfB, weightOf]
    norm_num
  refine ⟨?_, by norm_num⟩
  rw [concentration_mem_iff]
  refine ⟨by rw [htot]; norm_num, by decide, by decide, by norm_num, 18, by simp, ?_⟩
  rw [htot]
  simp [weightOf]

end InvestmentAnalysis
